import Mathlib

/-!
Verification of the inventory/operations backend (`go-inventory-ws`).

This file gives a shallow embedding, in Lean 4, of the parts of the Go
source that the specification's testable properties talk about:

* the interval algebra (`timeToMinutes`, `timeRangesOverlap` in
  `internal/repository` and the independent `timeToMinutes` in the shift
  service),
* the stock ledger (`inventoryService.CreateProduct`, `UpdateProduct`,
  `RecordTransaction` and `productRepo.UpdateStock`),
* the connection hub registry (`ws.Hub`),
* session validation (`authService.ValidateToken` and the `RequireAuth`
  middleware),
* the shift-creation validation pipeline (`shiftService.CreateShift`).

Modelling conventions: Go `int`/`int64` business quantities are embedded
as `Int` (the claims under study are about business-level arithmetic, not
word-size overflow); Go strings that the code indexes byte-wise are
embedded as `List Char` (every string the claims quantify over is ASCII,
where bytes and characters coincide, and byte subtraction is modelled
with its mod-256 wraparound); fallible Go functions returning `error`
become `Except`; the database is explicit state threaded through the
operations, with a successful commit returning the new state and any
error rolling the whole unit of work back (the caller keeps the old
state).  Persistence-layer failures themselves (I/O errors) are not
modelled: queries and writes succeed.
-/

/-! ## Interval algebra -/

/-- Byte subtraction `b - '0'` as Go computes it on a string byte:
wraparound subtraction modulo 256 of the byte value 48, then conversion
to `int`.  From `timeToMinutes`, `internal/repository/privilege_repo.go`. -/
def goByteDigit (c : Char) : Int :=
  (((c.toNat + 208) % 256 : Nat) : Int)

/-- Model of the repository's `timeToMinutes`
(`internal/repository/privilege_repo.go`): if the string has at least 5
bytes (the first match arm), hours are read from bytes 0-1 and minutes
from bytes 3-4 by character arithmetic; otherwise both stay 0. -/
def timeToMinutesRepo (s : List Char) : Int :=
  match s with
  | b0 :: b1 :: _ :: b3 :: b4 :: _ =>
    (goByteDigit b0 * 10 + goByteDigit b1) * 60 + (goByteDigit b3 * 10 + goByteDigit b4)
  | _ => 0

/-- Model of Go's `strings.Split` for a single-character separator:
the string is cut at every occurrence of the separator, and empty
pieces are kept (`strings.Split("", sep) = [""]`). -/
def splitOnChar (sep : Char) : List Char → List (List Char)
  | [] => [[]]
  | c :: rest =>
    match splitOnChar sep rest with
    | [] => [[]]
    | p :: ps => if c = sep then [] :: p :: ps else (c :: p) :: ps

/-- Decimal value of a digit string, accumulated left to right as
`strconv.Atoi` does on an in-range input. -/
def digitsVal (l : List Char) : Int :=
  l.foldl (fun acc c => acc * 10 + ((c.toNat : Int) - 48)) 0

/-- All characters are ASCII decimal digits. -/
def allDigits (l : List Char) : Bool :=
  l.all (fun c => decide (48 ≤ c.toNat) && decide (c.toNat ≤ 57))

/-- Model of `strconv.Atoi` as used by the shift service's
`timeToMinutes` (`cmd/api/main.go` bundle, shift service): an optional
sign followed by at least one digit parses to its value; on any syntax
error `Atoi` returns 0, and the caller ignores the error, so the model
returns 0 there. -/
def goAtoi (l : List Char) : Int :=
  match l with
  | [] => 0
  | c :: rest =>
    if c = '+' then (if rest ≠ [] ∧ allDigits rest then digitsVal rest else 0)
    else if c = '-' then (if rest ≠ [] ∧ allDigits rest then -(digitsVal rest) else 0)
    else if allDigits l then digitsVal l else 0

/-- Model of the shift service's `timeToMinutes`: split on `:`; if there
are not exactly two parts return 0, else `Atoi` each part (errors
ignored) and combine. -/
def timeToMinutesService (s : List Char) : Int :=
  match splitOnChar ':' s with
  | [p1, p2] => goAtoi p1 * 60 + goAtoi p2
  | _ => 0

/-- Hour field of the `HH:MM` regex `([01][0-9]|2[0-3])` from
`validateTimeFormat` (shift service). -/
def hourOK (h1 h2 : Char) : Bool :=
  ((h1 == '0' || h1 == '1') && (decide (48 ≤ h2.toNat) && decide (h2.toNat ≤ 57)))
    || (h1 == '2' && (decide (48 ≤ h2.toNat) && decide (h2.toNat ≤ 51)))

/-- Minute field of the `HH:MM` regex `([0-5][0-9])`. -/
def minuteOK (m1 m2 : Char) : Bool :=
  (decide (48 ≤ m1.toNat) && decide (m1.toNat ≤ 53))
    && (decide (48 ≤ m2.toNat) && decide (m2.toNat ≤ 57))

/-- Model of `validateTimeFormat`'s regex
`^([01][0-9]|2[0-3]):([0-5][0-9])$`: exactly five characters, a colon in
the middle, hour in 00-23, minute in 00-59. -/
def validTimeFormat (s : List Char) : Bool :=
  match s with
  | [h1, h2, c, m1, m2] => c == ':' && hourOK h1 h2 && minuteOK m1 m2
  | _ => false

/-- Core of `timeRangesOverlap` on already-converted minute offsets,
mirroring the Go control flow: overnight ends get 1440 added; if either
range is overnight, first the direct test, then the wrapped-tail test of
the overnight range against the other range's start; otherwise just the
direct half-open interval test. -/
def overlapCore (s1 e1 : Int) (overnight1 : Bool) (s2 e2 : Int) (overnight2 : Bool) : Bool :=
  let e1 := if overnight1 then e1 + 1440 else e1
  let e2 := if overnight2 then e2 + 1440 else e2
  if overnight1 || overnight2 then
    if ¬(e1 ≤ s2 ∨ e2 ≤ s1) then true
    else if overnight1 = true ∧ overnight2 = false ∧ s2 < e1 - 1440 then true
    else if overnight2 = true ∧ overnight1 = false ∧ s1 < e2 - 1440 then true
    else false
  else decide (¬(e1 ≤ s2 ∨ e2 ≤ s1))

/-- Model of `timeRangesOverlap`
(`internal/repository/privilege_repo.go`): convert the four time strings
with the repository's `timeToMinutes` and run the overlap test. -/
def timeRangesOverlap (start1 end1 : List Char) (overnight1 : Bool)
    (start2 end2 : List Char) (overnight2 : Bool) : Bool :=
  overlapCore (timeToMinutesRepo start1) (timeToMinutesRepo end1) overnight1
    (timeToMinutesRepo start2) (timeToMinutesRepo end2) overnight2

/-! ## Stock ledger

Embedding of `inventoryService` (service bundle in `src/unnamed/part_003`,
the current version, whose interface matches `cmd/api/main.go`) together
with `productRepo.UpdateStock`.  The state is one product row plus the
transaction table restricted to that product; UUIDs are `Nat` with `0`
playing `uuid.Nil`. -/

/-- Transaction type: `oneof=IN OUT` (`internal/model/transaction.go`). -/
inductive TxType
  | txIn
  | txOut
deriving DecidableEq, Repr

/-- Product row (`internal/model/product.go`): SKU and Name are
`validate:"required"`; Stock and Price carry no validation tags. -/
structure Product where
  id : Nat
  sku : String
  name : String
  stock : Int
  unit : String
  price : Int
deriving DecidableEq, Repr

/-- Transaction request as bound from the API body
(`internal/model/transaction.go`): the caller may supply any
`TotalAmount`. -/
structure TransactionReq where
  productID : Nat
  txType : TxType
  quantity : Int
  totalAmount : Int
  paymentMethod : String
deriving DecidableEq, Repr

/-- Persisted ledger entry (the `Transaction` row written by
`tx.Create(req)` after the service has overwritten `TotalAmount` and the
audit fields). -/
structure LedgerEntry where
  productID : Nat
  txType : TxType
  quantity : Int
  totalAmount : Int
  createdBy : String
deriving DecidableEq, Repr

/-- Database state for one product: its row and its ledger entries. -/
structure InvState where
  product : Product
  ledger : List LedgerEntry
deriving DecidableEq, Repr

deriving instance DecidableEq for Except

/-- Error kinds returned by the inventory service, one per distinct
`errors.New` site. -/
inductive InvErr
  | validationFailed
  | invalidPaymentMethod
  | skuExists
  | productNotFound
  | insufficientStock
deriving DecidableEq, Repr

/-- Struct validation of a transaction request
(`validator.ValidateStruct` over the model's tags): `ProductID` must be
a non-nil UUID (`uuid_required`) and `Quantity` must be positive
(`required,gt=0`); `Type` is one of IN/OUT by construction of `TxType`. -/
def validTransactionStruct (req : TransactionReq) : Bool :=
  decide (req.productID ≠ 0) && decide (0 < req.quantity)

/-- Payment-method check from `RecordTransaction`: CASH, TRANSFER, the
`"0"` placeholder, or empty. -/
def paymentMethodOK (pm : String) : Bool :=
  pm == "CASH" || pm == "TRANSFER" || pm == "0" || pm == ""

/-- Model of `inventoryService.RecordTransaction`: struct validation,
payment-method validation, locked lookup of the product row, snapshot
`TotalAmount := price * quantity`, the stock arithmetic with the
insufficient-stock guard for OUT, then the atomic pair of writes
(`UpdateStock` plus `tx.Create`); any error rolls the unit of work back,
so the caller keeps the prior state. -/
def recordTransaction (st : InvState) (req : TransactionReq) (userID : String) :
    Except InvErr InvState :=
  if ¬ validTransactionStruct req then .error .validationFailed
  else if ¬ paymentMethodOK req.paymentMethod then .error .invalidPaymentMethod
  else if req.productID ≠ st.product.id then .error .productNotFound
  else
    let entry : LedgerEntry :=
      { productID := req.productID, txType := req.txType, quantity := req.quantity,
        totalAmount := st.product.price * req.quantity, createdBy := userID }
    match req.txType with
    | .txIn =>
      .ok { product := { st.product with stock := st.product.stock + req.quantity },
            ledger := st.ledger ++ [entry] }
    | .txOut =>
      if st.product.stock < req.quantity then .error .insufficientStock
      else
        .ok { product := { st.product with stock := st.product.stock - req.quantity },
              ledger := st.ledger ++ [entry] }

/-- Run a sequence of `RecordTransaction` calls (each with its acting
user); a failed call leaves the state as it was. -/
def runTransactions (st : InvState) : List (TransactionReq × String) → InvState
  | [] => st
  | (r, u) :: rest =>
    match recordTransaction st r u with
    | .ok st2 => runTransactions st2 rest
    | .error _ => runTransactions st rest

/-- The requests of the successful calls of a sequence, in order. -/
def successfulCalls (st : InvState) : List (TransactionReq × String) → List TransactionReq
  | [] => []
  | (r, u) :: rest =>
    match recordTransaction st r u with
    | .ok st2 => r :: successfulCalls st2 rest
    | .error _ => successfulCalls st rest

/-- Sum of the quantities of the IN requests in a list. -/
def sumInQty (l : List TransactionReq) : Int :=
  ((l.filter (fun r => r.txType == TxType.txIn)).map (fun r => r.quantity)).sum

/-- Sum of the quantities of the OUT requests in a list. -/
def sumOutQty (l : List TransactionReq) : Int :=
  ((l.filter (fun r => r.txType == TxType.txOut)).map (fun r => r.quantity)).sum

/-- Struct validation of a product request: `SKU` and `Name` are
`required`; `Stock` has no tag and so is never checked. -/
def validProductStruct (req : Product) : Bool :=
  decide (req.sku ≠ "") && decide (req.name ≠ "")

/-- Model of `inventoryService.CreateProduct`: struct validation, then
the duplicate-SKU check (`FindBySKU`; a missing row leaves the zero
value, so only a found row with a non-nil ID is a duplicate), then
persistence, with the database assigning the new row's UUID. -/
def createProduct (db : List Product) (req : Product) (newID : Nat) :
    Except InvErr (List Product) :=
  if ¬ validProductStruct req then .error .validationFailed
  else
    match db.find? (fun p => p.sku == req.sku) with
    | some p =>
      if p.id ≠ 0 then .error .skuExists
      else .ok (db ++ [{ req with id := newID }])
    | none => .ok (db ++ [{ req with id := newID }])

/-- Model of `inventoryService.UpdateProduct`: locked lookup by id, then
persistence through `productRepo.UpdateStock`, which writes the
caller-supplied `Stock` value (plus the audit column) with no
non-negativity check.  (The `tx.Save` fallback only runs when
`UpdateStock` itself errors, which the model's infallible persistence
never does.) -/
def updateProduct (st : InvState) (id : Nat) (req : Product) : Except InvErr InvState :=
  if id ≠ st.product.id then .error .productNotFound
  else .ok { st with product := { st.product with stock := req.stock } }

/-- Concrete product used by the counterexamples: in stock 3. -/
def cexProduct : Product :=
  { id := 1, sku := "SKU1", name := "Widget", stock := 3, unit := "pcs", price := 100 }

/-- Concrete one-product state used by the counterexamples. -/
def cexState : InvState := { product := cexProduct, ledger := [] }

/-- OUT request for 5 units (more than the 3 in stock) whose payment
method is not one of the accepted values. -/
def cexOutReq : TransactionReq :=
  { productID := 1, txType := .txOut, quantity := 5, totalAmount := 0,
    paymentMethod := "CARD" }

/-- Product request carrying a negative stock value (and valid SKU and
Name). -/
def negStockReq : Product :=
  { id := 0, sku := "SKU2", name := "Gadget", stock := -5, unit := "pcs", price := 10 }

/-- OUT request for 5 units with an accepted payment method. -/
def cexOutReqOK : TransactionReq :=
  { productID := 1, txType := .txOut, quantity := 5, totalAmount := 0,
    paymentMethod := "CASH" }

/-- IN request for 2 units whose caller-supplied `TotalAmount` (99) is
not `price * quantity`. -/
def cexInReq : TransactionReq :=
  { productID := 1, txType := .txIn, quantity := 2, totalAmount := 99,
    paymentMethod := "" }

/-- The state `cexState` reaches after recording `cexInReq` as `"u1"`. -/
def cexStateAfterIn : InvState :=
  { product := { cexProduct with stock := 5 },
    ledger := [{ productID := 1, txType := .txIn, quantity := 2, totalAmount := 200,
                 createdBy := "u1" }] }

/-! ## Connection hub

Embedding of `ws.Hub` (`src/unnamed/part_011`, the current version with
user-targeted messaging that `cmd/api/main.go` uses; the copy in
`part_001` without `UserClients` is a stale duplicate).  Connections are
`Nat` handles; the three registry structures are the client set, the
per-user connection lists, and the connection-to-user map.  Go maps
become functions (an absent `UserClients` key and an empty list
coincide, which matches the code: `removeUserConnection` deletes the
key exactly when the list becomes empty, so a present key is always
non-empty).  Message payloads and delivery are irrelevant to the
registry, so a send is modelled by which connections' writes fail. -/

/-- The hub registry state. -/
structure Hub where
  clients : List Nat
  userConns : String → List Nat
  connUser : Nat → Option String

/-- The freshly constructed hub (`NewHub`). -/
def emptyHub : Hub :=
  { clients := [], userConns := fun _ => [], connUser := fun _ => none }

/-- Model of `Hub.removeUserConnection`: remove the first occurrence of
the connection from that user's list (the loop breaks after one
removal); deleting the emptied key is invisible in the function
representation. -/
def removeUserConnection (m : String → List Nat) (uid : String) (conn : Nat) :
    String → List Nat :=
  fun u => if u = uid then (m uid).erase conn else m u

/-- The cleanup block shared by the unregister and broadcast-failure
branches of `Hub.Run`: drop the connection from the client set, and if
it is user-tagged, from its user's list and the reverse map. -/
def pruneConn (h : Hub) (conn : Nat) : Hub :=
  match h.connUser conn with
  | some uid =>
    { clients := h.clients.erase conn,
      userConns := removeUserConnection h.userConns uid conn,
      connUser := fun c => if c = conn then none else h.connUser c }
  | none => { h with clients := h.clients.erase conn }

/-- The `Register` branch of `Hub.Run`: add to the client set (a map
set, hence idempotent). -/
def registerConn (h : Hub) (conn : Nat) : Hub :=
  { h with clients := h.clients.insert conn }

/-- Model of `Hub.RegisterWithUser`: add to the client set, append to
the user's connection list, and record the reverse mapping. -/
def registerWithUser (h : Hub) (conn : Nat) (uid : String) : Hub :=
  { clients := h.clients.insert conn,
    userConns := fun u => if u = uid then h.userConns uid ++ [conn] else h.userConns u,
    connUser := fun c => if c = conn then some uid else h.connUser c }

/-- The `Unregister` branch of `Hub.Run`: a no-op unless the connection
is currently in the client set, else the shared cleanup. -/
def unregisterConn (h : Hub) (conn : Nat) : Hub :=
  if conn ∈ h.clients then pruneConn h conn else h

/-- The `Broadcast` branch of `Hub.Run`: iterate over the client set
(the snapshot at dispatch; only the currently visited entry is ever
deleted) and prune each connection whose write fails. -/
def runBroadcast (h : Hub) (fail : Nat → Bool) : Hub :=
  h.clients.foldl (fun acc conn => if fail conn then pruneConn acc conn else acc) h

/-- The failure branch of the `TargetedSend` loop: unconditional
cleanup of the visited connection under the user id being served. -/
def pruneTargetedConn (h : Hub) (uid : String) (conn : Nat) : Hub :=
  { clients := h.clients.erase conn,
    userConns := removeUserConnection h.userConns uid conn,
    connUser := fun c => if c = conn then none else h.connUser c }

/-- One user of the `TargetedSend` branch: iterate over that user's
connection list as read on entry and prune each failing write. -/
def sendToUserConns (h : Hub) (uid : String) (fail : Nat → Bool) : Hub :=
  (h.userConns uid).foldl
    (fun acc conn => if fail conn then pruneTargetedConn acc uid conn else acc) h

/-- The `TargetedSend` branch of `Hub.Run` over all requested users. -/
def runTargetedSend (h : Hub) (uids : List String) (fail : Nat → Bool) : Hub :=
  uids.foldl (fun acc uid => sendToUserConns acc uid fail) h

/-- The five registry operations of the hub; sends carry the set of
connections whose write fails. -/
inductive HubOp
  | register (conn : Nat)
  | registerWithUser (conn : Nat) (uid : String)
  | unregister (conn : Nat)
  | broadcast (fail : Nat → Bool)
  | targetedSend (uids : List String) (fail : Nat → Bool)

/-- Dispatch of one hub operation, as `Hub.Run` and `RegisterWithUser`
perform it (each under the hub mutex, so operations are serialized). -/
def hubStep (h : Hub) : HubOp → Hub
  | .register conn => registerConn h conn
  | .registerWithUser conn uid => registerWithUser h conn uid
  | .unregister conn => unregisterConn h conn
  | .broadcast fail => runBroadcast h fail
  | .targetedSend uids fail => runTargetedSend h uids fail

/-- Side condition under which an operation is issued by the program:
`RegisterWithUser` is only ever called on a freshly upgraded websocket
connection (`cmd/api/main.go`), so the handle is not yet user-tagged;
the other operations need nothing. -/
def hubOpOK (h : Hub) : HubOp → Prop
  | .registerWithUser conn _ => h.connUser conn = none
  | _ => True

/-- The registry invariant: a user-tagged connection's reverse-map
entry, its presence in that user's list, and its membership in the
global client set all coincide (so every connection reachable through
the per-user map is in the global set, and conversely the global set
only holds reachable connections); each user's list has no duplicates. -/
def HubInv (h : Hub) : Prop :=
  (∀ u c, c ∈ h.userConns u → h.connUser c = some u)
  ∧ (∀ c u, h.connUser c = some u → c ∈ h.userConns u ∧ c ∈ h.clients)
  ∧ (∀ u, (h.userConns u).Nodup)

/-! ## Session state

Embedding of the session checks: `authService.ValidateToken`
(`internal/service/auth_service.go`) and the `RequireAuth` middleware
(`internal/middleware`, `src/unnamed/part_008`).  JWT parsing is the
excluded collaborator: both models start from an already
signature-valid token carrying its embedded token version, and from the
user row the repository lookup returned (or `none`).  Timestamps are
nanoseconds, Go `time.Duration`'s unit. -/

/-- The session-relevant fields of a user row
(`internal/model/user.go`). -/
structure AuthUser where
  isActive : Bool
  tokenVersion : String
  lastSeenAt : Option Int
deriving DecidableEq, Repr

/-- Error kinds of the session checks, one per return site. -/
inductive AuthErr
  | userNotFound
  | userInactive
  | versionMismatch
  | sessionTimeout
deriving DecidableEq, Repr

/-- Five minutes in nanoseconds (`5 * time.Minute`). -/
def fiveMinutes : Int := 300000000000

/-- Model of `authService.ValidateToken` after a signature-valid JWT:
user lookup, active check, token-version check, then the inactivity
check — `time.Since(LastSeenAt) > 5m` rejects, and a nil `LastSeenAt`
also rejects (the code invalidates to force re-login). -/
def validateTokenSession (user : Option AuthUser) (tokenVersion : String) (now : Int) :
    Except AuthErr Unit :=
  match user with
  | none => .error .userNotFound
  | some u =>
    if ¬ u.isActive then .error .userInactive
    else if u.tokenVersion ≠ tokenVersion then .error .versionMismatch
    else
      match u.lastSeenAt with
      | some t => if now - t > fiveMinutes then .error .sessionTimeout else .ok ()
      | none => .error .sessionTimeout

/-- Model of the `RequireAuth` middleware after a signature-valid JWT:
user lookup and token-version check only — it checks neither `IsActive`
nor `LastSeenAt`. -/
def requireAuthCheck (user : Option AuthUser) (tokenVersion : String) :
    Except AuthErr Unit :=
  match user with
  | none => .error .userNotFound
  | some u =>
    if u.tokenVersion ≠ tokenVersion then .error .versionMismatch else .ok ()

/-- Inactive user with a nil `LastSeenAt` whose stored token version is
`v1`. -/
def staleUser : AuthUser :=
  { isActive := false, tokenVersion := "v1", lastSeenAt := none }

/-! ## Shift scheduler

Embedding of the validation prefix of `shiftService.CreateShift`
(service bundle in `cmd/api/main.go`), steps 1-8: time formats,
start-not-equal-end, date parsing, date-range order, the
not-in-the-past check, user-id format, and user existence/activity.
Dates are mapped to absolute instants the way Go's `time` package
represents them: `ParseInLocation("2006-01-02", s, jakartaLoc)` yields
midnight Jakarta (UTC+7) of the parsed civil date, and
`time.Now().In(jakartaLoc).Truncate(24*time.Hour)` truncates the
current absolute time to a multiple of 24h since the zero time, i.e. to
the current UTC midnight.  Instants are seconds since the Unix epoch. -/

/-- Gregorian leap-year rule, as Go's `time` package applies it. -/
def isLeapYear (y : Nat) : Bool :=
  y % 4 == 0 && (y % 100 != 0 || y % 400 == 0)

/-- Length of a month, used by `time.Parse` to reject out-of-range
days. -/
def daysInMonth (y m : Nat) : Nat :=
  if m = 2 then (if isLeapYear y then 29 else 28)
  else if m = 4 ∨ m = 6 ∨ m = 9 ∨ m = 11 then 30
  else 31

/-- Civil date to days since 1970-01-01 (the standard era-based
calendar arithmetic; Go's `time` package agrees with it on all
Gregorian dates). -/
def daysFromCivil (y m d : Nat) : Int :=
  let yy : Int := if m ≤ 2 then (y : Int) - 1 else (y : Int)
  let era : Int := (if 0 ≤ yy then yy else yy - 399) / 400
  let yoe : Int := yy - era * 400
  let mp : Int := if 2 < m then (m : Int) - 3 else (m : Int) + 9
  let doy : Int := (153 * mp + 2) / 5 + (d : Int) - 1
  let doe : Int := yoe * 365 + yoe / 4 - yoe / 100 + doy
  era * 146097 + doe - 719468

/-- Numeric value of an ASCII digit. -/
def digitVal (c : Char) : Nat := c.toNat - 48

/-- Model of `validateDateFormat` /
`time.ParseInLocation("2006-01-02", ...)`: strict `YYYY-MM-DD`, month
1-12, day within the month's length. -/
def parseDate (s : List Char) : Option (Nat × Nat × Nat) :=
  match s with
  | [y1, y2, y3, y4, c1, m1, m2, c2, d1, d2] =>
    if c1 = '-' ∧ c2 = '-' ∧ allDigits [y1, y2, y3, y4] = true
        ∧ allDigits [m1, m2] = true ∧ allDigits [d1, d2] = true then
      let y := ((digitVal y1 * 10 + digitVal y2) * 10 + digitVal y3) * 10 + digitVal y4
      let m := digitVal m1 * 10 + digitVal m2
      let d := digitVal d1 * 10 + digitVal d2
      if 1 ≤ m ∧ m ≤ 12 ∧ 1 ≤ d ∧ d ≤ daysInMonth y m then some (y, m, d) else none
    else none
  | _ => none

/-- Jakarta's fixed UTC offset (+07:00) in seconds. -/
def jakartaOffset : Int := 25200

/-- The absolute instant of midnight Jakarta on a civil date, in
seconds since the epoch: what `ParseInLocation` returns for that
date. -/
def dateToInstant (y m d : Nat) : Int :=
  daysFromCivil y m d * 86400 - jakartaOffset

/-- The civil day (days since the epoch) that an instant falls on in
the Jakarta zone. -/
def wibDay (t : Int) : Int := (t + jakartaOffset).fdiv 86400

/-- ASCII hex digit (either case). -/
def isHexDigit (c : Char) : Bool :=
  (decide (48 ≤ c.toNat) && decide (c.toNat ≤ 57))
    || (decide (97 ≤ c.toNat) && decide (c.toNat ≤ 102))
    || (decide (65 ≤ c.toNat) && decide (c.toNat ≤ 70))

/-- Model of `uuid.Parse` succeeding, restricted to the canonical
hyphenated 36-character form (the form the API's clients send; the
library also accepts braced/URN variants, which no claim exercises). -/
def uuidFormatOK (s : List Char) : Bool :=
  decide (s.length = 36)
    && (List.range 36).all (fun i =>
        if i = 8 ∨ i = 13 ∨ i = 18 ∨ i = 23 then s.getD i ' ' == '-'
        else isHexDigit (s.getD i ' '))

/-- Error kinds of `CreateShift`'s validation steps, one per distinct
error value in the source, in source order. -/
inductive ShiftErr
  | invalidTimeFormat
  | sameTimeStartEnd
  | invalidDateFormat
  | endDateBeforeStart
  | startDateInPast
  | invalidUserIDFormat
  | userNotFound
  | userNotActive
deriving DecidableEq, Repr

/-- The target user's row as far as shift validation consults it. -/
structure ShiftUser where
  isActive : Bool
deriving DecidableEq, Repr

/-- A `CreateShiftRequest` body. -/
structure ShiftReq where
  userID : List Char
  startTime : List Char
  endTime : List Char
  startDate : List Char
  endDate : List Char

/-- Model of `CreateShift`'s validation sequence (steps 1-8), in source
order: start-time format, end-time format, start≠end, start-date
parse, end-date parse, `endDate.Before(startDate)` on the parsed
instants, `startDate.Before(today)` where `today` is the current
absolute time truncated to the UTC day, user-id parse, user lookup,
user active. -/
def createShiftValidate (req : ShiftReq) (now : Int)
    (findUser : List Char → Option ShiftUser) : Except ShiftErr Unit :=
  if ¬ validTimeFormat req.startTime then .error .invalidTimeFormat
  else if ¬ validTimeFormat req.endTime then .error .invalidTimeFormat
  else if req.startTime = req.endTime then .error .sameTimeStartEnd
  else
    match parseDate req.startDate with
    | none => .error .invalidDateFormat
    | some sd =>
      match parseDate req.endDate with
      | none => .error .invalidDateFormat
      | some ed =>
        let sInst := dateToInstant sd.1 sd.2.1 sd.2.2
        let eInst := dateToInstant ed.1 ed.2.1 ed.2.2
        if eInst < sInst then .error .endDateBeforeStart
        else
          let today := 86400 * now.fdiv 86400
          if sInst < today then .error .startDateInPast
          else if ¬ uuidFormatOK req.userID then .error .invalidUserIDFormat
          else
            match findUser req.userID with
            | none => .error .userNotFound
            | some user =>
              if ¬ user.isActive then .error .userNotActive else .ok ()

/-- A fully valid request for a one-day shift on 2026-10-11 (a
Sunday), 08:00-17:00. -/
def cexShiftReq : ShiftReq :=
  { userID := "123e4567-e89b-12d3-a456-426614174000".data,
    startTime := "08:00".data, endTime := "17:00".data,
    startDate := "2026-10-11".data, endDate := "2026-10-11".data }

/-- 2026-10-11 01:00:00 UTC, which is 2026-10-11 08:00 in Jakarta
(day 20737 since the epoch). -/
def cexNow : Int := 20737 * 86400 + 3600

/-! ## Theorems: interval algebra -/

/-- Helper: the overlap core is symmetric in its two ranges, for all
minute offsets and overnight flags. -/
theorem overlapCore_comm (s1 e1 : Int) (o1 : Bool) (s2 e2 : Int) (o2 : Bool) :
    overlapCore s1 e1 o1 s2 e2 o2 = overlapCore s2 e2 o2 s1 e1 o1 := by
  cases o1 <;> cases o2 <;> simp [overlapCore, or_comm] <;> split_ifs <;> omega

/-- Helper: a string accepted by the `HH:MM` regex is exactly five
characters, with a colon in the middle and in-range digit fields. -/
theorem validTimeFormat_shape (s : List Char) (h : validTimeFormat s = true) :
    ∃ h1 h2 m1 m2, s = [h1, h2, ':', m1, m2]
      ∧ hourOK h1 h2 = true ∧ minuteOK m1 m2 = true := by
  rcases s with _ | ⟨a, _ | ⟨b, _ | ⟨c, _ | ⟨d, _ | ⟨e, _ | ⟨f, rest⟩⟩⟩⟩⟩⟩
  · simp [validTimeFormat] at h
  · simp [validTimeFormat] at h
  · simp [validTimeFormat] at h
  · simp [validTimeFormat] at h
  · simp [validTimeFormat] at h
  · simp only [validTimeFormat, Bool.and_eq_true, beq_iff_eq] at h
    obtain ⟨⟨rfl, hh⟩, hm⟩ := h
    exact ⟨a, b, d, e, rfl, hh, hm⟩
  · simp [validTimeFormat] at h

/-- Helper: digit bounds for the hour field of the regex. -/
theorem hourOK_bounds (h1 h2 : Char) (h : hourOK h1 h2 = true) :
    48 ≤ h1.toNat ∧ h1.toNat ≤ 50 ∧ 48 ≤ h2.toNat ∧ h2.toNat ≤ 57 := by
  simp only [hourOK, Bool.or_eq_true, Bool.and_eq_true, beq_iff_eq,
    decide_eq_true_eq] at h
  rcases h with ⟨ha, hb, hc⟩ | ⟨ha, hb, hc⟩
  · rcases ha with rfl | rfl <;> exact ⟨by decide, by decide, hb, hc⟩
  · subst ha; exact ⟨by decide, by decide, hb, by omega⟩

/-- Helper: digit bounds for the minute field of the regex. -/
theorem minuteOK_bounds (m1 m2 : Char) (h : minuteOK m1 m2 = true) :
    48 ≤ m1.toNat ∧ m1.toNat ≤ 53 ∧ 48 ≤ m2.toNat ∧ m2.toNat ≤ 57 := by
  simp only [minuteOK, Bool.and_eq_true, decide_eq_true_eq] at h
  exact ⟨h.1.1, h.1.2, h.2.1, h.2.2⟩

/-- Helper: on an ASCII digit, Go's wraparound byte subtraction of `'0'`
is plain subtraction. -/
theorem goByteDigit_eq (c : Char) (hlo : 48 ≤ c.toNat) (hhi : c.toNat ≤ 57) :
    goByteDigit c = (c.toNat : Int) - 48 := by
  unfold goByteDigit; omega

/-- Helper: splitting a well-formed time string on the colon yields the
hour part and the minute part. -/
theorem splitOnChar_time (h1 h2 m1 m2 : Char) (hne1 : h1 ≠ ':') (hne2 : h2 ≠ ':')
    (hne3 : m1 ≠ ':') (hne4 : m2 ≠ ':') :
    splitOnChar ':' [h1, h2, ':', m1, m2] = [[h1, h2], [m1, m2]] := by
  simp [splitOnChar, hne1, hne2, hne3, hne4]

/-- C9: the repository's character-arithmetic `timeToMinutes` and the
shift service's split-and-parse `timeToMinutes` return equal results on
every string in valid `HH:MM` format, namely `hours*60 + minutes`. -/
theorem timeToMinutes_agree (s : List Char) (h : validTimeFormat s = true) :
    timeToMinutesRepo s = timeToMinutesService s
    ∧ timeToMinutesRepo s = digitsVal (s.take 2) * 60 + digitsVal (s.drop 3) := by
  obtain ⟨h1, h2, m1, m2, rfl, hh, hm⟩ := validTimeFormat_shape s h
  obtain ⟨b1, b2, b3, b4⟩ := hourOK_bounds h1 h2 hh
  obtain ⟨b5, b6, b7, b8⟩ := minuteOK_bounds m1 m2 hm
  have hne1 : h1 ≠ ':' := by intro e; rw [e] at b2; simp at b2
  have hne2 : h2 ≠ ':' := by intro e; rw [e] at b4; simp at b4
  have hne3 : m1 ≠ ':' := by intro e; rw [e] at b6; simp at b6
  have hne4 : m2 ≠ ':' := by intro e; rw [e] at b8; simp at b8
  have hnp1 : h1 ≠ '+' := by intro e; rw [e] at b1; simp at b1
  have hnm1 : h1 ≠ '-' := by intro e; rw [e] at b1; simp at b1
  have hrepo : timeToMinutesRepo [h1, h2, ':', m1, m2]
      = ((h1.toNat : Int) - 48) * 600 + ((h2.toNat : Int) - 48) * 60
        + ((m1.toNat : Int) - 48) * 10 + ((m2.toNat : Int) - 48) := by
    simp only [timeToMinutesRepo]
    rw [goByteDigit_eq h1 b1 (by omega), goByteDigit_eq h2 b3 b4,
      goByteDigit_eq m1 b5 (by omega), goByteDigit_eq m2 b7 b8]
    ring
  have hd1 : allDigits [h1, h2] = true := by
    simp only [allDigits, List.all_cons, List.all_nil, Bool.and_eq_true,
      decide_eq_true_eq]
    exact ⟨⟨b1, by omega⟩, ⟨b3, b4⟩, trivial⟩
  have hd2 : allDigits [m1, m2] = true := by
    simp only [allDigits, List.all_cons, List.all_nil, Bool.and_eq_true,
      decide_eq_true_eq]
    exact ⟨⟨b5, by omega⟩, ⟨b7, b8⟩, trivial⟩
  have hserv : timeToMinutesService [h1, h2, ':', m1, m2]
      = ((h1.toNat : Int) - 48) * 600 + ((h2.toNat : Int) - 48) * 60
        + ((m1.toNat : Int) - 48) * 10 + ((m2.toNat : Int) - 48) := by
    simp only [timeToMinutesService, splitOnChar_time h1 h2 m1 m2 hne1 hne2 hne3 hne4]
    simp only [goAtoi, if_neg hnp1, if_neg hnm1,
      if_neg (show m1 ≠ '+' by intro e; rw [e] at b5; simp at b5),
      if_neg (show m1 ≠ '-' by intro e; rw [e] at b5; simp at b5),
      hd1, hd2, if_pos rfl, if_true, digitsVal, List.foldl]
    ring
  refine ⟨by rw [hrepo, hserv], ?_⟩
  rw [hrepo]
  have ht : ([h1, h2, ':', m1, m2].take 2) = [h1, h2] := rfl
  have hdp : ([h1, h2, ':', m1, m2].drop 3) = [m1, m2] := rfl
  rw [ht, hdp]
  simp only [digitsVal, List.foldl]
  ring

/-- C9 witness: the two implementations agree at the concrete valid
input `08:30`. -/
theorem timeToMinutes_agree_witness :
    timeToMinutesRepo "08:30".data = timeToMinutesService "08:30".data
    ∧ timeToMinutesRepo "08:30".data
        = digitsVal ("08:30".data.take 2) * 60 + digitsVal ("08:30".data.drop 3) :=
  timeToMinutes_agree "08:30".data (by decide)

/-- C10: the time-overlap test is symmetric in its two shifts, for all
time strings in valid `HH:MM` format and all overnight flags. -/
theorem timeRangesOverlap_symm (s1 e1 s2 e2 : List Char) (o1 o2 : Bool)
    (hv1 : validTimeFormat s1 = true) (hv2 : validTimeFormat e1 = true)
    (hv3 : validTimeFormat s2 = true) (hv4 : validTimeFormat e2 = true) :
    timeRangesOverlap s1 e1 o1 s2 e2 o2 = timeRangesOverlap s2 e2 o2 s1 e1 o1 := by
  unfold timeRangesOverlap
  exact overlapCore_comm _ _ _ _ _ _

/-- C10 witness: symmetry at a concrete pair of valid ranges. -/
theorem timeRangesOverlap_symm_witness :
    timeRangesOverlap "22:00".data "06:00".data true "05:00".data "09:00".data false
      = timeRangesOverlap "05:00".data "09:00".data false "22:00".data "06:00".data true :=
  timeRangesOverlap_symm "22:00".data "06:00".data "05:00".data "09:00".data true false
    (by decide) (by decide) (by decide) (by decide)

/-- C4: the time-overlap test returns true for (10:00-14:00) vs
(13:00-18:00); false for (10:00-14:00) vs (14:00-18:00), a touching
boundary not being an overlap; true for overnight (22:00-06:00) vs
(05:00-09:00); and false for overnight (22:00-06:00) vs (07:00-09:00). -/
theorem timeRangesOverlap_spec_examples :
    timeRangesOverlap "10:00".data "14:00".data false "13:00".data "18:00".data false = true
    ∧ timeRangesOverlap "10:00".data "14:00".data false "14:00".data "18:00".data false = false
    ∧ timeRangesOverlap "22:00".data "06:00".data true "05:00".data "09:00".data false = true
    ∧ timeRangesOverlap "22:00".data "06:00".data true "07:00".data "09:00".data false = false := by
  refine ⟨?_, ?_, ?_, ?_⟩ <;> decide

/-! ## Theorems: stock ledger -/

/-- Helper: full characterization of a successful `RecordTransaction`
call: the request passed validation, targeted the existing product, and
the new state has the adjusted stock and exactly one appended ledger
entry whose `TotalAmount` is the price snapshot times the quantity. -/
theorem recordTransaction_ok_spec (st : InvState) (req : TransactionReq) (u : String)
    (st2 : InvState) (h : recordTransaction st req u = .ok st2) :
    0 < req.quantity
    ∧ req.productID = st.product.id
    ∧ st2.product.id = st.product.id
    ∧ st2.product.price = st.product.price
    ∧ st2.product.stock
        = st.product.stock + (if req.txType = .txIn then req.quantity else -req.quantity)
    ∧ (req.txType = .txOut → req.quantity ≤ st.product.stock)
    ∧ st2.ledger = st.ledger
        ++ [{ productID := req.productID, txType := req.txType, quantity := req.quantity,
              totalAmount := st.product.price * req.quantity, createdBy := u }] := by
  obtain ⟨pid, ty, q, ta, pm⟩ := req
  unfold recordTransaction at h
  cases ty with
  | txIn =>
    simp only [] at h
    split_ifs at h with hv hp hn
    all_goals try exact Except.noConfusion h
    simp only [validTransactionStruct, Bool.and_eq_true, decide_eq_true_eq] at hv
    have hpid : pid = st.product.id := by omega
    injection h with h
    subst h
    simp only []
    refine ⟨hv.2, hpid, trivial, trivial, by simp, by simp, trivial⟩
  | txOut =>
    simp only [] at h
    split_ifs at h with hv hp hn hs
    all_goals try exact Except.noConfusion h
    simp only [validTransactionStruct, Bool.and_eq_true, decide_eq_true_eq] at hv
    have hpid : pid = st.product.id := by omega
    injection h with h
    subst h
    simp only []
    refine ⟨hv.2, hpid, trivial, trivial, by simp [sub_eq_add_neg], fun _ => by omega, trivial⟩

/-- Helper: a failed `RecordTransaction` call produces no state. -/
theorem recordTransaction_error_keeps (st : InvState) (r : TransactionReq) (u : String)
    (e : InvErr) (h : recordTransaction st r u = .error e) (rest : List (TransactionReq × String)) :
    runTransactions st ((r, u) :: rest) = runTransactions st rest := by
  simp [runTransactions, h]

/-- Helper: `sumInQty` over a cons. -/
theorem sumInQty_cons (r : TransactionReq) (l : List TransactionReq) :
    sumInQty (r :: l) = (if r.txType = .txIn then r.quantity else 0) + sumInQty l := by
  by_cases h : r.txType = TxType.txIn <;>
    simp [sumInQty, List.filter_cons, h]

/-- Helper: `sumOutQty` over a cons. -/
theorem sumOutQty_cons (r : TransactionReq) (l : List TransactionReq) :
    sumOutQty (r :: l) = (if r.txType = .txOut then r.quantity else 0) + sumOutQty l := by
  by_cases h : r.txType = TxType.txOut <;>
    simp [sumOutQty, List.filter_cons, h]

/-- C1: over any finite sequence of `RecordTransaction` calls against
one product, the final stock equals the initial stock plus the sum of
the successful IN quantities minus the sum of the successful OUT
quantities, and the number of ledger entries created equals the number
of successful calls. -/
theorem recordTransaction_replay (st : InvState) (calls : List (TransactionReq × String)) :
    (runTransactions st calls).product.stock
      = st.product.stock + sumInQty (successfulCalls st calls)
        - sumOutQty (successfulCalls st calls)
    ∧ (runTransactions st calls).ledger.length
      = st.ledger.length + (successfulCalls st calls).length := by
  induction calls generalizing st with
  | nil => simp [runTransactions, successfulCalls, sumInQty, sumOutQty]
  | cons c rest ih =>
    obtain ⟨r, u⟩ := c
    cases hrec : recordTransaction st r u with
    | ok st2 =>
      obtain ⟨_, _, _, _, hstock, _, hledger⟩ := recordTransaction_ok_spec st r u st2 hrec
      have ih2 := ih st2
      simp only [runTransactions, successfulCalls, hrec]
      constructor
      · rw [ih2.1, hstock, sumInQty_cons, sumOutQty_cons]
        cases hty : r.txType <;> simp [hty] <;> ring
      · rw [ih2.2, hledger]
        simp only [List.length_append, List.length_cons, List.length_nil]
        omega
    | error e =>
      simp only [runTransactions, successfulCalls, hrec]
      exact ih st


/-- C2 counterexample: an OUT call for 5 units against a stock of 3 — so
the quantity itself passes input validation and exceeds the stock — but
whose payment method is invalid fails with the payment-method error, not
the insufficient-stock error. -/
theorem recordTransaction_out_pm_cex :
    cexState.product.stock < cexOutReq.quantity
    ∧ 0 < cexOutReq.quantity
    ∧ cexOutReq.txType = TxType.txOut
    ∧ recordTransaction cexState cexOutReq "u1" = .error .invalidPaymentMethod
    ∧ recordTransaction cexState cexOutReq "u1" ≠ .error .insufficientStock := by
  decide

/-- C2 (amended): an OUT call whose quantity exceeds the current stock
and which passes input validation — including the payment-method check —
fails with the insufficient-stock error, and the state is unchanged
afterwards: the stock is still what it was and no ledger entry was
created. -/
theorem recordTransaction_insufficient_stock (st : InvState) (req : TransactionReq)
    (u : String) (hq : 0 < req.quantity) (hid : req.productID = st.product.id)
    (hid0 : req.productID ≠ 0) (hpm : paymentMethodOK req.paymentMethod = true)
    (hty : req.txType = .txOut) (hgt : st.product.stock < req.quantity) :
    recordTransaction st req u = .error .insufficientStock
    ∧ runTransactions st [(req, u)] = st := by
  obtain ⟨pid, ty, q, ta, pm⟩ := req
  simp only [] at hq hid hid0 hpm hty hgt
  subst hty
  have hrec : recordTransaction st
      { productID := pid, txType := .txOut, quantity := q, totalAmount := ta,
        paymentMethod := pm } u = .error .insufficientStock := by
    unfold recordTransaction
    rw [if_neg (by simp [validTransactionStruct]; exact ⟨hid0, hq⟩),
      if_neg (by simp [hpm]), if_neg (by simp only []; omega)]
    simp only []
    rw [if_pos hgt]
  exact ⟨hrec, by simp [runTransactions, hrec]⟩

/-- C2 witness: the amended statement at stock 3, an OUT request for 5
units paid in CASH. -/
theorem recordTransaction_insufficient_stock_witness :
    recordTransaction cexState cexOutReqOK "u1" = .error .insufficientStock
    ∧ runTransactions cexState [(cexOutReqOK, "u1")] = cexState :=
  recordTransaction_insufficient_stock cexState cexOutReqOK "u1" (by decide) (by decide)
    (by decide) (by decide) (by decide) (by decide)

/-- C3 counterexample: `CreateProduct` accepts a request whose stock is
-5 (only SKU and Name are validated) and persists the product with that
negative stock; `UpdateProduct` likewise writes the caller-supplied
negative stock through `UpdateStock`. -/
theorem stock_nonneg_cex :
    createProduct [] negStockReq 7 = .ok [{ negStockReq with id := 7 }]
    ∧ ({ negStockReq with id := 7 } : Product).stock < 0
    ∧ updateProduct cexState 1 negStockReq
        = .ok { product := { cexProduct with stock := -5 }, ledger := [] }
    ∧ ({ cexProduct with stock := -5 } : Product).stock < 0 := by
  decide

/-- C3 (amended): the `RecordTransaction` path preserves non-negative
stock — from a state with stock at least 0, any successful call leaves
stock at least 0 — but `CreateProduct` and `UpdateProduct` persist the
caller-supplied stock value unchecked. -/
theorem recordTransaction_preserves_nonneg (st : InvState) (req : TransactionReq)
    (u : String) (st2 : InvState) (h0 : 0 ≤ st.product.stock)
    (h : recordTransaction st req u = .ok st2) :
    0 ≤ st2.product.stock := by
  obtain ⟨hq, _, _, _, hstock, hout, _⟩ := recordTransaction_ok_spec st req u st2 h
  cases hty : req.txType with
  | txIn => rw [hty] at hstock; simp at hstock; omega
  | txOut =>
    rw [hty] at hstock
    simp at hstock
    have := hout hty
    omega

/-- C3 witness: the amended statement at a concrete successful IN call. -/
theorem recordTransaction_preserves_nonneg_witness :
    0 ≤ cexStateAfterIn.product.stock :=
  recordTransaction_preserves_nonneg cexState cexInReq "u1" cexStateAfterIn
    (by decide) (by decide)

/-- C5: every successful `RecordTransaction` call appends exactly one
ledger entry, whose `TotalAmount` is the product's price as read under
the row lock times the call's quantity — irrespective of the
`TotalAmount` the caller supplied in the request. -/
theorem recordTransaction_totalAmount_snapshot (st : InvState) (req : TransactionReq)
    (u : String) (st2 : InvState) (h : recordTransaction st req u = .ok st2) :
    st2.ledger = st.ledger
      ++ [{ productID := req.productID, txType := req.txType, quantity := req.quantity,
            totalAmount := st.product.price * req.quantity, createdBy := u }] :=
  (recordTransaction_ok_spec st req u st2 h).2.2.2.2.2.2

/-- C5 witness: at price 100 and quantity 2, the persisted entry carries
`TotalAmount` 200 although the request supplied 99. -/
theorem recordTransaction_totalAmount_snapshot_witness :
    cexStateAfterIn.ledger = cexState.ledger
      ++ [{ productID := cexInReq.productID, txType := cexInReq.txType,
            quantity := cexInReq.quantity,
            totalAmount := cexState.product.price * cexInReq.quantity,
            createdBy := "u1" }] :=
  recordTransaction_totalAmount_snapshot cexState cexInReq "u1" cexStateAfterIn (by decide)

/-! ## Theorems: connection hub -/

/-- Helper: the shared cleanup block preserves the registry invariant
for any connection. -/
theorem pruneConn_inv (h : Hub) (conn : Nat) (hinv : HubInv h) :
    HubInv (pruneConn h conn) := by
  obtain ⟨h1, h2, h3⟩ := hinv
  unfold pruneConn
  cases hcu : h.connUser conn with
  | none =>
    refine ⟨h1, fun c u hc => ?_, h3⟩
    have hne : c ≠ conn := by
      intro e; rw [e, hcu] at hc; exact Option.noConfusion hc
    exact ⟨(h2 c u hc).1, (List.mem_erase_of_ne hne).2 (h2 c u hc).2⟩
  | some uid =>
    refine ⟨?_, ?_, ?_⟩
    · intro u c hc
      simp only [removeUserConnection] at hc ⊢
      by_cases hu : u = uid
      · subst hu
        rw [if_pos rfl] at hc
        have hcne : c ≠ conn := by
          intro e; subst e
          exact (h3 u).not_mem_erase hc
        rw [if_neg hcne]
        exact h1 u c (List.mem_of_mem_erase hc)
      · rw [if_neg hu] at hc
        have hcu2 := h1 u c hc
        have hcne : c ≠ conn := by
          intro e; subst e
          rw [hcu] at hcu2
          exact hu (Option.some.inj hcu2).symm
        rw [if_neg hcne]
        exact hcu2
    · intro c u hcup
      simp only [removeUserConnection] at hcup ⊢
      have hcne : c ≠ conn := by
        intro e; subst e; rw [if_pos rfl] at hcup; exact Option.noConfusion hcup
      rw [if_neg hcne] at hcup
      obtain ⟨hm, hcl⟩ := h2 c u hcup
      refine ⟨?_, (List.mem_erase_of_ne hcne).2 hcl⟩
      by_cases hu : u = uid
      · subst hu; rw [if_pos rfl]; exact (List.mem_erase_of_ne hcne).2 hm
      · rw [if_neg hu]; exact hm
    · intro u
      simp only [removeUserConnection]
      by_cases hu : u = uid
      · subst hu; rw [if_pos rfl]; exact (h3 u).erase conn
      · rw [if_neg hu]; exact h3 u

/-- Helper: the targeted-send cleanup preserves the invariant whenever
the pruned connection is untagged or tagged with the user being served
(which holds for every connection the loop visits). -/
theorem pruneTargetedConn_inv (h : Hub) (uid : String) (conn : Nat) (hinv : HubInv h)
    (hcond : h.connUser conn = none ∨ h.connUser conn = some uid) :
    HubInv (pruneTargetedConn h uid conn) := by
  obtain ⟨h1, h2, h3⟩ := hinv
  refine ⟨?_, ?_, ?_⟩
  · intro u c hc
    simp only [pruneTargetedConn, removeUserConnection] at hc ⊢
    by_cases hcc : c = conn
    · subst hcc
      exfalso
      by_cases hu : u = uid
      · subst hu; rw [if_pos rfl] at hc; exact (h3 u).not_mem_erase hc
      · rw [if_neg hu] at hc
        have hcu2 := h1 u c hc
        rcases hcond with hh | hh <;> rw [hh] at hcu2
        · exact Option.noConfusion hcu2
        · exact hu (Option.some.inj hcu2).symm
    · rw [if_neg hcc]
      by_cases hu : u = uid
      · subst hu; rw [if_pos rfl] at hc; exact h1 u c (List.mem_of_mem_erase hc)
      · rw [if_neg hu] at hc; exact h1 u c hc
  · intro c u hcup
    simp only [pruneTargetedConn, removeUserConnection] at hcup ⊢
    have hcc : c ≠ conn := by
      intro e; subst e; rw [if_pos rfl] at hcup; exact Option.noConfusion hcup
    rw [if_neg hcc] at hcup
    obtain ⟨hm, hcl⟩ := h2 c u hcup
    refine ⟨?_, (List.mem_erase_of_ne hcc).2 hcl⟩
    by_cases hu : u = uid
    · subst hu; rw [if_pos rfl]; exact (List.mem_erase_of_ne hcc).2 hm
    · rw [if_neg hu]; exact hm
  · intro u
    simp only [pruneTargetedConn, removeUserConnection]
    by_cases hu : u = uid
    · subst hu; rw [if_pos rfl]; exact (h3 u).erase conn
    · rw [if_neg hu]; exact h3 u

/-- Helper: anonymous registration preserves the invariant. -/
theorem registerConn_inv (h : Hub) (conn : Nat) (hinv : HubInv h) :
    HubInv (registerConn h conn) := by
  obtain ⟨h1, h2, h3⟩ := hinv
  refine ⟨h1, fun c u hcup => ?_, h3⟩
  obtain ⟨hm, hcl⟩ := h2 c u hcup
  exact ⟨hm, List.mem_insert_iff.2 (Or.inr hcl)⟩

/-- Helper: user-tagged registration of a not-yet-tagged connection
preserves the invariant. -/
theorem registerWithUser_inv (h : Hub) (conn : Nat) (uid : String) (hinv : HubInv h)
    (hfresh : h.connUser conn = none) : HubInv (registerWithUser h conn uid) := by
  obtain ⟨h1, h2, h3⟩ := hinv
  have hnotin : ∀ u, conn ∉ h.userConns u := by
    intro u hc
    have hcu2 := h1 u conn hc
    rw [hfresh] at hcu2
    exact Option.noConfusion hcu2
  refine ⟨?_, ?_, ?_⟩
  · intro u c hc
    simp only [registerWithUser] at hc ⊢
    by_cases hu : u = uid
    · subst hu
      rw [if_pos rfl] at hc
      rcases List.mem_append.1 hc with hcl | hcr
      · have hcu2 := h1 u c hcl
        have hcc : c ≠ conn := fun e => hnotin u (e ▸ hcl)
        rw [if_neg hcc]
        exact hcu2
      · have hcc : c = conn := by simpa using hcr
        subst hcc
        rw [if_pos rfl]
    · rw [if_neg hu] at hc
      have hcu2 := h1 u c hc
      have hcc : c ≠ conn := fun e => hnotin u (e ▸ hc)
      rw [if_neg hcc]
      exact hcu2
  · intro c u hcup
    simp only [registerWithUser] at hcup ⊢
    by_cases hcc : c = conn
    · subst hcc
      rw [if_pos rfl] at hcup
      have hu : u = uid := (Option.some.inj hcup).symm
      subst hu
      refine ⟨?_, List.mem_insert_iff.2 (Or.inl rfl)⟩
      rw [if_pos rfl]
      exact List.mem_append.2 (Or.inr (by simp))
    · rw [if_neg hcc] at hcup
      obtain ⟨hm, hcl⟩ := h2 c u hcup
      refine ⟨?_, List.mem_insert_iff.2 (Or.inr hcl)⟩
      by_cases hu : u = uid
      · subst hu; rw [if_pos rfl]; exact List.mem_append.2 (Or.inl hm)
      · rw [if_neg hu]; exact hm
  · intro u
    simp only [registerWithUser]
    by_cases hu : u = uid
    · subst hu; rw [if_pos rfl]
      simp [List.nodup_append, h3 u, hnotin u]
    · rw [if_neg hu]; exact h3 u

/-- Helper: unregistering preserves the invariant (idempotently). -/
theorem unregisterConn_inv (h : Hub) (conn : Nat) (hinv : HubInv h) :
    HubInv (unregisterConn h conn) := by
  unfold unregisterConn
  split_ifs with hc
  · exact pruneConn_inv h conn hinv
  · exact hinv

/-- Helper: the broadcast pruning fold preserves the invariant. -/
theorem foldl_pruneConn_inv (fail : Nat → Bool) (l : List Nat) :
    ∀ h : Hub, HubInv h →
      HubInv (l.foldl (fun acc conn => if fail conn then pruneConn acc conn else acc) h) := by
  induction l with
  | nil => exact fun h hinv => hinv
  | cons a l ih =>
    intro h hinv
    simp only [List.foldl_cons]
    cases hf : fail a with
    | true =>
      rw [if_pos rfl]
      exact ih _ (pruneConn_inv h a hinv)
    | false =>
      rw [if_neg Bool.false_ne_true]
      exact ih h hinv

/-- Helper: a whole broadcast preserves the invariant. -/
theorem runBroadcast_inv (h : Hub) (fail : Nat → Bool) (hinv : HubInv h) :
    HubInv (runBroadcast h fail) :=
  foldl_pruneConn_inv fail h.clients h hinv

/-- Helper: the targeted pruning fold preserves the invariant when
every visited connection is untagged or tagged with the served user. -/
theorem foldl_pruneTargeted_inv (fail : Nat → Bool) (uid : String) (l : List Nat) :
    ∀ h : Hub, HubInv h → (∀ c ∈ l, h.connUser c = none ∨ h.connUser c = some uid) →
      HubInv (l.foldl
        (fun acc conn => if fail conn then pruneTargetedConn acc uid conn else acc) h) := by
  induction l with
  | nil => exact fun h hinv _ => hinv
  | cons a l ih =>
    intro h hinv hcond
    simp only [List.foldl_cons]
    cases hf : fail a with
    | true =>
      rw [if_pos rfl]
      apply ih
      · exact pruneTargetedConn_inv h uid a hinv (hcond a (List.mem_cons_self a l))
      · intro c hcl
        simp only [pruneTargetedConn]
        by_cases hcc : c = a
        · subst hcc; rw [if_pos rfl]; exact Or.inl rfl
        · rw [if_neg hcc]; exact hcond c (List.mem_cons_of_mem a hcl)
    | false =>
      rw [if_neg Bool.false_ne_true]
      exact ih h hinv (fun c hcl => hcond c (List.mem_cons_of_mem a hcl))

/-- Helper: serving one user of a targeted send preserves the
invariant. -/
theorem sendToUserConns_inv (h : Hub) (uid : String) (fail : Nat → Bool)
    (hinv : HubInv h) : HubInv (sendToUserConns h uid fail) := by
  apply foldl_pruneTargeted_inv fail uid (h.userConns uid) h hinv
  intro c hc
  exact Or.inr (hinv.1 uid c hc)

/-- Helper: a whole targeted send preserves the invariant. -/
theorem runTargetedSend_inv (h : Hub) (uids : List String) (fail : Nat → Bool)
    (hinv : HubInv h) : HubInv (runTargetedSend h uids fail) := by
  unfold runTargetedSend
  induction uids generalizing h with
  | nil => exact hinv
  | cons u l ih =>
    simp only [List.foldl_cons]
    exact ih _ (sendToUserConns_inv h u fail hinv)

/-- C6: every hub operation — register, register-with-user (of a
connection not yet user-tagged, which is the only way the program calls
it: each registration is of a freshly upgraded connection), unregister,
broadcast, and targeted send, including their failure-pruning
branches — preserves the registry invariant: a user-tagged connection's
reverse-map entry, its list membership, and its client-set membership
coincide, and every connection reachable through the per-user map is in
the global client set. -/
theorem hub_registry_invariant (h : Hub) (op : HubOp) (hinv : HubInv h)
    (hok : hubOpOK h op) : HubInv (hubStep h op) := by
  cases op with
  | register conn => exact registerConn_inv h conn hinv
  | registerWithUser conn uid => exact registerWithUser_inv h conn uid hinv hok
  | unregister conn => exact unregisterConn_inv h conn hinv
  | broadcast fail => exact runBroadcast_inv h fail hinv
  | targetedSend uids fail => exact runTargetedSend_inv h uids fail hinv

/-- C6 witness: the invariant holds after tagged registration of
connection 0 on the fresh hub. -/
theorem hub_registry_invariant_witness :
    HubInv (hubStep emptyHub (.registerWithUser 0 "u1")) :=
  hub_registry_invariant emptyHub (.registerWithUser 0 "u1")
    ⟨fun _ c hc => absurd hc (List.not_mem_nil c),
      fun _ u hcu => Option.noConfusion hcu,
      fun _ => List.nodup_nil⟩ rfl

/-! ## Theorems: session state and shift validation -/

/-- C7 counterexample: the `RequireAuth` middleware guarding every
protected operation accepts a credential with a matching token version
although the user is inactive and `LastSeenAt` is nil. -/
theorem requireAuth_accepts_inactive_cex :
    requireAuthCheck (some staleUser) "v1" = .ok ()
    ∧ staleUser.isActive = false
    ∧ staleUser.lastSeenAt = none := by
  decide

/-- C7 (amended): the validate-token operation accepts a credential
for an existing user exactly when the embedded version matches the
stored one, the user is active, and `now - LastSeenAt` is at most five
minutes with a nil `LastSeenAt` rejected; the middleware on protected
routes accepts exactly when the embedded version matches, checking
neither activity nor `LastSeenAt`. -/
theorem session_checks_characterization :
    (∀ (u : AuthUser) (v : String) (now : Int),
        validateTokenSession (some u) v now = .ok ()
          ↔ u.isActive = true ∧ u.tokenVersion = v
            ∧ ∃ t, u.lastSeenAt = some t ∧ now - t ≤ fiveMinutes)
    ∧ (∀ (u : AuthUser) (v : String),
        requireAuthCheck (some u) v = .ok () ↔ u.tokenVersion = v) := by
  constructor
  · intro u v now
    cases hact : u.isActive with
    | false => simp [validateTokenSession, hact]
    | true =>
      by_cases hver : u.tokenVersion = v
      · cases hls : u.lastSeenAt with
        | none => simp [validateTokenSession, hact, hver, hls]
        | some t =>
          by_cases htime : now - t > fiveMinutes
          · simp only [validateTokenSession, hact, hver, hls]
            simp [htime, hact, hver, hls]
            omega
          · simp only [validateTokenSession, hact, hver, hls]
            simp [htime, hact, hver, hls]
            omega
      · simp [validateTokenSession, hact, hver]
  · intro u v
    by_cases hver : u.tokenVersion = v
    · simp [requireAuthCheck, hver]
    · simp [requireAuthCheck, hver]

/-- C8: at 08:00 Jakarta time on 2026-10-11, creating a shift that
starts the same day — today in the fixed local zone, hence not in the
past at day granularity — is rejected with the start-date-in-the-past
error: the code truncates `now` to the UTC day boundary while the
parsed date sits at Jakarta midnight, seven hours earlier. -/
theorem createShift_today_rejected :
    createShiftValidate cexShiftReq cexNow (fun _ => some { isActive := true })
      = .error .startDateInPast
    ∧ parseDate cexShiftReq.startDate = some (2026, 10, 11)
    ∧ daysFromCivil 2026 10 11 = wibDay cexNow := by
  refine ⟨?_, ?_, ?_⟩ <;> decide
